import Mathlib

/-!
Verification development for the signalforge market-data signal service.

Each Python module of the core is shallowly embedded as Lean definitions:

* `src/app/validator.py`      → namespace `Validator`
* `src/app/data_client.py`    → namespace `DataClient`
* `src/app/signals/basic.py`  → namespace `Basic`
* `src/app/signals/baseline.py` → namespace `Baseline`
* `src/app/ml/infer.py`       → namespace `Infer`

Modelling conventions:

* Python floats are modelled as `ℚ`; a pandas/NumPy NaN cell is `Option.none`.
* Fallible Python code returns `Except`: `Except.error` is an uncaught Python
  exception, `Except.ok` the normal return value (which may itself be an
  `Option` when the function signals rejection by returning `None`).
* `dict.get`/attribute presence is `Option`.
-/

set_option allowUnsafeReducibility true
attribute [semireducible] Rat.add Rat.mul Rat.sub Rat.div Rat.inv Rat.blt Rat.neg

namespace SignalForge

/-! ## Validator (src/app/validator.py) -/

namespace Validator

/-- Python value found under the `"ts"` key of a raw bar, as far as
`_parse_ts` distinguishes values: a numeric epoch-seconds value, an ISO
string (with a flag recording whether `datetime.fromisoformat` accepts it),
or any other value (including Python `None`), which parses to `None`. -/
inductive TsVal where
  | epochSecs (z : ℤ)
  | isoString (s : String) (parses : Bool)
  | unparseable
deriving DecidableEq, Repr

/-- `_parse_ts`: epoch seconds or ISO string to canonical UTC ISO string.
The exact rendering of the ISO string is irrelevant to every claim, so the
rendering of an epoch value is modelled abstractly by `toString`. -/
def _parse_ts : TsVal → Option String
  | .epochSecs z => some (toString z)
  | .isoString s true => some s
  | .isoString _ false => none
  | .unparseable => none

/-- Python value found under the `"volume"` key: its truthiness (for
`bar.get("volume") or 0`) and the result of `int(...)` on it
(`none` when `int(...)` raises, e.g. for the string `"abc"`). -/
structure VolVal where
  truthy : Bool
  asInt : Option ℤ
deriving DecidableEq, Repr

/-- A raw bar mapping as consumed by `validate_bar`.  For each of the four
price keys, the outer `Option` is key presence and the inner `Option` is
the result of `float(...)` (`none` when the coercion raises).  Field names
carry a trailing underscore because `open` is a Lean keyword. -/
structure RawBar where
  open_ : Option (Option ℚ)
  high_ : Option (Option ℚ)
  low_ : Option (Option ℚ)
  close_ : Option (Option ℚ)
  ts_ : Option TsVal
  volume_ : Option VolVal
deriving DecidableEq, Repr

/-- The normalized bar dict built by `validate_bar` on success.  The `ts`
and `time` keys are present only when the timestamp parsed. -/
structure NormBar where
  symbol : String
  open_ : ℚ
  high : ℚ
  low : ℚ
  close : ℚ
  volume : ℤ
  ts : Option TsVal
  time : Option String
deriving DecidableEq, Repr

/-- `int(bar.get("volume") or 0)`: absent or falsy volume gives `0`; a
truthy volume is handed to `int(...)`, whose failure (`none`) is an
uncaught exception in the source. -/
def volumeField : Option VolVal → Option ℤ
  | none => some 0
  | some v => if v.truthy then v.asInt else some 0

deriving instance DecidableEq for Except

/-- `str.upper()`.  `String.toUpper` itself does not reduce inside the
kernel, so the same function is written via the character list. -/
def pyUpper (s : String) : String := String.mk (s.data.map Char.toUpper)

/-- The range check `low <= o <= h and low <= c <= h` of `validate_bar`
(the source tests its negation and rejects; here the branches are swapped,
which is the same conditional). -/
abbrev rangeOk (o h low c : ℚ) : Prop := low ≤ o ∧ o ≤ h ∧ low ≤ c ∧ c ≤ h

/-- `validate_bar(bar, symbol)`: required-key check, timestamp parse,
float coercion of the four prices, range check, then construction of the
normalized dict.  `Except.error ()` models an uncaught exception (the
`int(...)` call on the volume is outside every `try`).  The timestamp is
parsed before the coercions in the source; it is side-effect free, so
computing it at the point of use is equivalent. -/
def validate_bar (bar : RawBar) (symbol : String) : Except Unit (Option NormBar) :=
  match bar.open_, bar.high_, bar.low_, bar.close_ with
  | some oC, some hC, some lC, some cC =>
    match oC, hC, lC, cC with
    | some o, some h, some low, some c =>
      if rangeOk o h low c then
        match volumeField bar.volume_ with
        | some v =>
          let ts : Option String := bar.ts_.bind _parse_ts
          .ok (some { symbol := pyUpper symbol, open_ := o, high := h, low := low, close := c,
                      volume := v,
                      ts := if ts.isSome then bar.ts_ else none,
                      time := ts })
        | none => .error ()
      else .ok none
    | _, _, _, _ => .ok none
  | _, _, _, _ => .ok none

/-- A bar whose four prices are present, float-coercible and correctly
ordered, but whose volume value is truthy and not `int(...)`-coercible. -/
def rangeOkBadVolume : RawBar :=
  { open_ := some (some 1), high_ := some (some 2), low_ := some (some 0),
    close_ := some (some 1), ts_ := none,
    volume_ := some { truthy := true, asInt := none } }

/-- Same prices as `rangeOkBadVolume` but with the volume key absent. -/
def rangeOkNoVolume : RawBar :=
  { open_ := some (some 1), high_ := some (some 2), low_ := some (some 0),
    close_ := some (some 1), ts_ := none, volume_ := none }

/-- A well-formed bar except that its volume coerces to the negative
integer `-5`. -/
def negVolumeBar : RawBar :=
  { open_ := some (some 1), high_ := some (some 2), low_ := some (some 0),
    close_ := some (some 1), ts_ := none,
    volume_ := some { truthy := true, asInt := some (-5) } }

/-- A bar with the volume key absent, used to witness the default-0 rule. -/
def absentVolumeBar : RawBar :=
  { open_ := some (some 3), high_ := some (some 4), low_ := some (some 2),
    close_ := some (some 3), ts_ := none, volume_ := none }

/-- Expected normalized output for `absentVolumeBar`. -/
def absentVolumeOut : NormBar :=
  { symbol := "QQQ", open_ := 3, high := 4, low := 2, close := 3,
    volume := 0, ts := none, time := none }

/-- A different range-valid bar with a non-coercible volume (distinct
concrete input for claim C8). -/
def c8Bar : RawBar :=
  { open_ := some (some 10), high_ := some (some 12), low_ := some (some 9),
    close_ := some (some 11), ts_ := none,
    volume_ := some { truthy := true, asInt := none } }

end Validator

/-! ## Strict feature builder (src/app/signals/basic.py)

A pandas Series/column is modelled cell-wise: the value of a column at row
`i` is an `Option ℚ`, with `none` for NaN.  The input table is the coerced
OHLCV frame produced by `_ensure_df` from an ordered candle series (all
five base columns numeric). -/

namespace Basic

/-- One coerced OHLCV row of the input DataFrame. -/
structure Row where
  open_ : ℚ
  high : ℚ
  low : ℚ
  close : ℚ
  volume : ℚ
deriving DecidableEq, Repr

/-- Positional value of a column (only read at in-range indices). -/
def nthC (s : List ℚ) (i : Nat) : ℚ := s.getD i 0

/-- Cell `i` of a NaN-free column of length `s.length`. -/
def cell (s : List ℚ) (i : Nat) : Option ℚ :=
  if i < s.length then some (nthC s i) else none

/-- A whole pandas row is non-NaN iff every cell is; `seqOpt` collects the
values (`none` as soon as one cell is NaN), which is exactly what `dropna`
tests on each row. -/
def seqOpt : List (Option ℚ) → Option (List ℚ)
  | [] => some []
  | none :: _ => none
  | some v :: rest => (seqOpt rest).map (fun l => v :: l)

/-- `Series.rolling(w, min_periods=w).mean()` at row `i`: defined iff the
window is full and every cell in it is non-NaN (the window size equals
`min_periods`, so pandas' NaN-skipping mean degenerates to the plain
mean of the window). -/
def rollMean (f : Nat → Option ℚ) (w i : Nat) : Option ℚ :=
  if i + 1 < w then none
  else (seqOpt ((List.range w).map (fun j => f (i + 1 - w + j)))).map
    (fun l => l.sum / (w : ℚ))

/-- `Series.diff()` at row `i` (NaN at row 0). -/
def diffC (s : List ℚ) (i : Nat) : Option ℚ :=
  if i = 0 ∨ s.length ≤ i then none else some (nthC s i - nthC s (i - 1))

/-- `delta.clip(lower=0.0)` cell (the positive part of the delta). -/
def upC (s : List ℚ) (i : Nat) : Option ℚ :=
  (diffC s i).map (fun d => max d 0)

/-- `-(delta.clip(upper=0.0))` cell (absolute negative part of the delta). -/
def downC (s : List ℚ) (i : Nat) : Option ℚ :=
  (diffC s i).map (fun d => max (-d) 0)

/-- `up.rolling(period, min_periods=period).mean()` cell. -/
def roll_up (s : List ℚ) (period i : Nat) : Option ℚ := rollMean (upC s) period i

/-- `down.rolling(period, min_periods=period).mean()` cell. -/
def roll_down (s : List ℚ) (period i : Nat) : Option ℚ := rollMean (downC s) period i

/-- `rs = roll_up / roll_down.replace(0.0, np.nan)` cell: NaN whenever the
average loss is NaN *or exactly zero* (the `replace` call), else the
quotient. -/
def rs (s : List ℚ) (period i : Nat) : Option ℚ :=
  (roll_down s period i).bind (fun d =>
    if d = 0 then none else (roll_up s period i).map (fun u => u / d))

/-- `_rsi(prices, period)` cell: `100 - 100/(1+rs)`, NaN where `rs` is. -/
def _rsi (s : List ℚ) (period i : Nat) : Option ℚ :=
  (rs s period i).map (fun r => 100 - 100 / (1 + r))

/-- `_sma(s, n)` cell: `s.rolling(n, min_periods=n).mean()`. -/
def _sma (s : List ℚ) (n i : Nat) : Option ℚ := rollMean (cell s) n i

/-- `_ret(s, n) = s.pct_change(n)` cell.  In IEEE arithmetic a zero
previous value gives `±inf` for a nonzero numerator (a *defined*, i.e.
non-NaN, cell — represented here by the `ℚ` division convention, whose
exact value no theorem inspects) and NaN (`0/0`) when both are zero. -/
def _ret (s : List ℚ) (n i : Nat) : Option ℚ :=
  if i < n ∨ s.length ≤ i then none
  else if nthC s (i - n) = 0 ∧ nthC s i = 0 then none
  else some ((nthC s i - nthC s (i - n)) / nthC s (i - n))

/-- Column `close` of the coerced frame. -/
def closes (rows : List Row) : List ℚ := rows.map (fun r => r.close)

/-- Column `volume` of the coerced frame. -/
def volumes (rows : List Row) : List ℚ := rows.map (fun r => r.volume)

/-- Column `typ_price = (high + low + close) / 3`. -/
def typs (rows : List Row) : List ℚ := rows.map (fun r => (r.high + r.low + r.close) / 3)

/-- Column `open`. -/
def opens (rows : List Row) : List ℚ := rows.map (fun r => r.open_)

/-- Column `high`. -/
def highs (rows : List Row) : List ℚ := rows.map (fun r => r.high)

/-- Column `low`. -/
def lows (rows : List Row) : List ℚ := rows.map (fun r => r.low)

/-- The fourteen cells of row `i` of `df_feat`, in the source's column
creation order: `open, high, low, close, volume, typ_price, ret_1, ret_3,
sma_5, sma_10, sma_20, rsi_14, vol_10, tp_sma_10` (`vol_10` is the
10-period rolling mean of volume, i.e. an `_sma` of the volume column). -/
def rowCells (rows : List Row) (i : Nat) : List (Option ℚ) :=
  [cell (opens rows) i, cell (highs rows) i, cell (lows rows) i,
   cell (closes rows) i, cell (volumes rows) i, cell (typs rows) i,
   _ret (closes rows) 1 i, _ret (closes rows) 3 i,
   _sma (closes rows) 5 i, _sma (closes rows) 10 i, _sma (closes rows) 20 i,
   _rsi (closes rows) 14 i,
   _sma (volumes rows) 10 i, _sma (typs rows) 10 i]

/-- `build_features`: engineer all columns, then `dropna().reset_index()` —
the output keeps exactly the rows all of whose cells are non-NaN, as lists
of the fourteen values in column order. -/
def build_features (rows : List Row) : List (List ℚ) :=
  (List.range rows.length).filterMap (fun i => seqOpt (rowCells rows i))

/-- Twenty bars with strictly increasing closes `1..20` (every price delta
positive). -/
def rowsUp20 : List Row :=
  (List.range 20).map (fun j =>
    { open_ := (j : ℚ) + 1, high := (j : ℚ) + 1, low := (j : ℚ) + 1,
      close := (j : ℚ) + 1, volume := 1000 })

/-- Twenty bars with alternating closes `1,2,1,2,...` (every 14-delta
window contains a negative delta, so `rsi_14` is defined). -/
def rowsAlt20 : List Row :=
  (List.range 20).map (fun j =>
    { open_ := 1, high := 2, low := 1,
      close := if j % 2 = 0 then 1 else 2, volume := 1000 })

/-- Sixteen strictly increasing closes `1..16`. -/
def closesUp16 : List ℚ := (List.range 16).map (fun j => (j : ℚ) + 1)

end Basic

/-! ## Baseline feature builder (src/app/signals/baseline.py) -/

namespace Baseline

/-- The changes `closes[i] - closes[i-1]` visited by the gains/losses loop
of `_rsi14`: `i` ranges over `range(len - period + 1, len)`, i.e. the last
`period - 1` consecutive deltas. -/
def rsiChanges (closes : List ℚ) (period : Nat) : List ℚ :=
  (List.range (period - 1)).map (fun j =>
    Basic.nthC closes (closes.length - period + 1 + j)
      - Basic.nthC closes (closes.length - period + j))

/-- `gains`: the sum of the positive changes (`if change > 0: gains += change`). -/
def rsiGains (closes : List ℚ) (period : Nat) : ℚ :=
  ((rsiChanges closes period).map (fun ch => if 0 < ch then ch else 0)).sum

/-- `losses`: the sum of `-change` over the non-positive changes
(`else: losses -= change`). -/
def rsiLosses (closes : List ℚ) (period : Nat) : ℚ :=
  ((rsiChanges closes period).map (fun ch => if 0 < ch then 0 else -ch)).sum

/-- `_rsi14(closes, period)`: Wilder-style RSI over the last bars.
`None` when `len(closes) <= period`; otherwise gains/losses are averaged
over `period`, and a zero average loss returns exactly `100.0`.  (The only
call sites use `period = 14`; for `period = 0` Python would raise
`ZeroDivisionError`, which Lean's `x / 0 = 0` convention instead sends into
the `avg_loss == 0` branch — no claim touches that period.) -/
def _rsi14 (closes : List ℚ) (period : Nat) : Option ℚ :=
  if closes.length ≤ period then none
  else
    if rsiLosses closes period / (period : ℚ) = 0 then some 100
    else some (100 - 100 /
      (1 + (rsiGains closes period / (period : ℚ)) / (rsiLosses closes period / (period : ℚ))))

end Baseline

/-! ## Artifact-bound predictor (src/app/ml/infer.py)

The trained scaler and classifier are opaque fitted objects; the embedding
keeps exactly what `_prepare_features`/`predict_proba` observe of them: the
optionally-exposed `n_features_in_` attribute (already folded with the
`int(...)` coercion that collapses a non-coercible attribute to "absent"),
the scaler's `transform`, and the model's class-1 probability output
(whichever of `predict_proba` / `decision_function` + sigmoid / `predict`
the source derives it from).  A DataFrame is an ordered association list of
named numeric columns; a NumPy array is kept abstract as its `ndim`,
`shape[1]` and column-major data. -/

namespace Infer

/-- What the predictor observes of a 2-D numeric array: `ndim`, `shape[1]`
and the matrix content, stored column-major (the row-major `to_numpy`
matrix and this column list carry the same information). -/
structure NpArray where
  ndim : Nat
  ncols : Nat
  cols : List (List ℚ)
deriving DecidableEq, Repr

/-- The fitted scaler: optional `n_features_in_` and its `transform`. -/
structure Scaler where
  nFeaturesIn : Option Nat
  transform : NpArray → NpArray

/-- The fitted classifier: optional `n_features_in_` and its class-1
probability output on the scaled matrix. -/
structure MlModel where
  nFeaturesIn : Option Nat
  proba : NpArray → List ℚ

/-- `model_meta.json` as the predictor reads it: the raw `feature_names`
entry (absent or a string list; a non-list value behaves as absent) and the
optional `threshold`. -/
structure Meta where
  feature_names : Option (List String)
  threshold : Option ℚ
deriving DecidableEq, Repr

/-- The `Predictor.feature_names` property: the metadata list when it is a
non-empty list, else `None` (fallback mode). -/
def feature_names (m : Meta) : Option (List String) :=
  match m.feature_names with
  | some feats => if 0 < feats.length then some feats else none
  | none => none

/-- `X.columns` of a DataFrame given as an association list. -/
def keys (cols : List (String × List ℚ)) : List String := cols.map (fun p => p.1)

/-- Column lookup by name (first match; DataFrame column names are unique
in every caller). -/
def klookup (c : String) : List (String × List ℚ) → Option (List ℚ)
  | [] => none
  | (n, v) :: rest => if n = c then some v else klookup c rest

/-- The structured errors `_prepare_features` raises as `ValueError`s. -/
inductive PredictError where
  | missingCols (cols : List String)
  | notTwoD (ndim : Nat)
  | dimMismatch (expected actual : Nat)
deriving DecidableEq, Repr

/-- Input to `predict_proba`: a pandas DataFrame or a NumPy array. -/
inductive PredInput where
  | df (cols : List (String × List ℚ))
  | arr (a : NpArray)

/-- Expected input width: the scaler's fitted feature count when exposed,
else the model's. -/
def expectedDim (s : Scaler) (model : MlModel) : Option Nat :=
  match s.nFeaturesIn with
  | some e => some e
  | none => model.nFeaturesIn

/-- `[c for c in self.feature_names if c not in X.columns]`. -/
def missingOf (fns : List String) (cols : List (String × List ℚ)) : List String :=
  fns.filter (fun c => ! (keys cols).contains c)

/-- `X[self.feature_names].to_numpy(dtype=float)`: the named columns, in
the metadata's declared order. -/
def dfArrNamed (fns : List String) (cols : List (String × List ℚ)) : NpArray :=
  { ndim := 2, ncols := fns.length, cols := fns.map (fun c => (klookup c cols).getD []) }

/-- `X.to_numpy(dtype=float)` in fallback mode: the columns as-is. -/
def dfArrFallback (cols : List (String × List ℚ)) : NpArray :=
  { ndim := 2, ncols := cols.length, cols := cols.map (fun p => p.2) }

/-- The trailing shape validation of `_prepare_features`: reject non-2-D
input, then compare `shape[1]` against the expected width, naming both on
mismatch. -/
def dimCheck (expected : Option Nat) (a : NpArray) : Except PredictError NpArray :=
  if a.ndim ≠ 2 then .error (.notTwoD a.ndim)
  else
    match expected with
    | some e => if a.ncols ≠ e then .error (.dimMismatch e a.ncols) else .ok a
    | none => .ok a

/-- `Predictor._prepare_features`: missing-column check and column
selection in declared order when `feature_names` exists, as-is acceptance
otherwise, then the dimensionality check. -/
def _prepare_features (meta : Meta) (s : Scaler) (model : MlModel) (X : PredInput) :
    Except PredictError NpArray :=
  match X with
  | .df cols =>
    match feature_names meta with
    | some fns =>
      if missingOf fns cols ≠ [] then .error (.missingCols (missingOf fns cols))
      else dimCheck (expectedDim s model) (dfArrNamed fns cols)
    | none => dimCheck (expectedDim s model) (dfArrFallback cols)
  | .arr a => dimCheck (expectedDim s model) a

/-- `Predictor.predict_proba`: prepare, scale, and read the class-1
probabilities. -/
def predict_proba (meta : Meta) (s : Scaler) (model : MlModel) (X : PredInput) :
    Except PredictError (List ℚ) :=
  (_prepare_features meta s model X).map (fun a => model.proba (s.transform a))

/-- `Predictor.predict`: probabilities thresholded by the explicit
argument, else the metadata threshold, else 0.5. -/
def predict (meta : Meta) (s : Scaler) (model : MlModel) (X : PredInput)
    (threshold : Option ℚ) : Except PredictError (List Nat) :=
  (predict_proba meta s model X).map (fun p =>
    p.map (fun q => if threshold.getD (meta.threshold.getD (1/2)) ≤ q then 1 else 0))

/-- Concrete metadata declaring two ordered feature names. -/
def metaEx : Meta := { feature_names := some ["sma_5", "rsi_14"], threshold := none }

/-- Concrete metadata without a feature-name list (fallback mode). -/
def metaNoFns : Meta := { feature_names := none, threshold := none }

/-- A concrete fitted scaler exposing width 2, transforming identically. -/
def scalerEx : Scaler := { nFeaturesIn := some 2, transform := fun a => a }

/-- A concrete model exposing no width, scoring a constant probability. -/
def modelEx : MlModel :=
  { nFeaturesIn := none, proba := fun a => (a.cols.headD []).map (fun _ => 1/2) }

/-- A concrete table holding the two declared columns in swapped order. -/
def colsEx : List (String × List ℚ) := [("rsi_14", [30, 60]), ("sma_5", [1, 2])]

/-- A concrete 2-D array of width 3 (mismatching the scaler's width 2). -/
def arrEx : NpArray := { ndim := 2, ncols := 3, cols := [[1], [2], [3]] }

end Infer

/-! ## Market data client (src/app/data_client.py)

The TTL cache is keyed lookup state orthogonal to every claim (all claims
concern the cache-miss behaviour); the embedding models the cache-miss
path.  The single HTTP round-trip is a parameter: its outcome (parsed
body, status error, or network-level request error) is the input `http`.
Randomness is a parameter too: `random.gauss(mu, s) = mu + s * N(0,1)`
draws are represented by their standard-normal parts, `random.random()`
draws (always in `[0, 1)`) and `random.randint(1000, 5000)` draws by one
stream each, indexed by the loop step. -/

namespace DataClient

/-- `_ALLOWED_INTERVALS`. -/
def _ALLOWED_INTERVALS : List String :=
  ["1m", "2m", "5m", "15m", "30m", "60m", "90m", "1h", "1d"]

/-- `_INTERVAL_TO_MIN` (note: no entry for `"1d"`). -/
def _INTERVAL_TO_MIN : List (String × Nat) :=
  [("1m", 1), ("2m", 2), ("5m", 5), ("15m", 15), ("30m", 30), ("60m", 60), ("90m", 90),
   ("1h", 60)]

/-- `_INTERVAL_TO_MIN.get(interval, 5)`. -/
def minutesOf (interval : String) : Nat := (_INTERVAL_TO_MIN.lookup interval).getD 5

/-- `str.strip()` on ASCII whitespace (written over the character list so
it reduces in the kernel). -/
def pyStrip (s : String) : String :=
  String.mk (((s.data.dropWhile Char.isWhitespace).reverse.dropWhile
    Char.isWhitespace).reverse)

/-- `str.lower()`. -/
def pyLower (s : String) : String := String.mk (s.data.map Char.toLower)

/-- The errors `fetch_market_data` can raise. -/
inductive FetchErr where
  | unsupportedInterval (interval : String)
  | httpStatus (code : Nat)
  | unsupportedProvider (provider : String)
  | pyError
deriving DecidableEq, Repr

/-- `_normalize_interval`: lower-case and strip, map the literal `"5"` to
`"5m"`, reject anything outside the allow-list. -/
def _normalize_interval (interval : String) : Except FetchErr String :=
  let t := pyStrip (pyLower interval)
  let t := if t = "5" then "5m" else t
  if t ∈ _ALLOWED_INTERVALS then .ok t else .error (.unsupportedInterval t)

/-- The random draws one `_synthetic_candles_list` call consumes, indexed
by loop step. -/
structure Rng where
  gauss : Nat → ℚ
  unifHi : Nat → ℚ
  unifLo : Nat → ℚ
  vols : Nat → ℤ

/-- `{"up": 0.04, "down": -0.04, "flat": 0.0}.get(mode, 0.0)`. -/
def driftOf (mode : String) : ℚ :=
  (([("up", (4 : ℚ)/100), ("down", -(4 : ℚ)/100), ("flat", 0)]).lookup mode).getD 0

/-- Python `int(...)` on a float: truncation toward zero. -/
def pyTrunc (q : ℚ) : ℤ := if 0 ≤ q then ⌊q⌋ else ⌈q⌉

/-- `new_close = max(1.0, price + step)` with
`step = random.gauss(drift, 0.5)`. -/
def synthClose (mode : String) (rng : Rng) (i : Nat) (price : ℚ) : ℚ :=
  max 1 (price + (driftOf mode + (1/2) * rng.gauss i))

/-- `hi = max(open_, new_close) + random.random() * 0.3`. -/
def synthHigh (mode : String) (rng : Rng) (i : Nat) (price : ℚ) : ℚ :=
  max price (synthClose mode rng i price) + rng.unifHi i * (3/10)

/-- `lo = min(open_, new_close) - random.random() * 0.3`. -/
def synthLow (mode : String) (rng : Rng) (i : Nat) (price : ℚ) : ℚ :=
  min price (synthClose mode rng i price) - rng.unifLo i * (3/10)

/-- `ts = int((now - timedelta(minutes=minutes * (limit - 1 - i))).timestamp())`. -/
def synthTs (minutes limit : Nat) (now : ℚ) (i : Nat) : ℤ :=
  pyTrunc (now - ((60 * minutes * (limit - 1 - i) : ℕ) : ℚ))

/-- The candidate dict built at step `i` of the generator loop, fed to
`validate_bar` (volume is an `int`, so its coercion never raises; an `int`
is falsy exactly when it is zero). -/
def synthCandidate (mode : String) (rng : Rng) (minutes limit : Nat) (now : ℚ)
    (i : Nat) (price : ℚ) : Validator.RawBar :=
  { open_ := some (some price),
    high_ := some (some (synthHigh mode rng i price)),
    low_ := some (some (synthLow mode rng i price)),
    close_ := some (some (synthClose mode rng i price)),
    ts_ := some (.epochSecs (synthTs minutes limit now i)),
    volume_ := some { truthy := decide (rng.vols i ≠ 0), asInt := some (rng.vols i) } }

/-- The generator loop: build the candidate, validate it, keep it only if
accepted, carry `price = new_close` forward.  An uncaught exception inside
`validate_bar` would abort the whole call (`Except.error`). -/
def synthLoop (mode : String) (rng : Rng) (minutes limit : Nat) (now : ℚ) :
    List Nat → ℚ → Except Unit (List Validator.NormBar)
  | [], _ => .ok []
  | i :: rest, price =>
    match Validator.validate_bar (synthCandidate mode rng minutes limit now i price) "SYNTH" with
    | .error e => .error e
    | .ok none => synthLoop mode rng minutes limit now rest (synthClose mode rng i price)
    | .ok (some b) =>
      (synthLoop mode rng minutes limit now rest (synthClose mode rng i price)).map
        (fun bs => b :: bs)

/-- `_synthetic_candles_list(limit, interval, mode)`: the random walk
starts at `price = 100.0` and visits steps `0, ..., limit - 1`. -/
def _synthetic_candles_list (limit : Nat) (interval mode : String) (rng : Rng) (now : ℚ) :
    Except Unit (List Validator.NormBar) :=
  synthLoop mode rng (minutesOf interval) limit now (List.range limit) 100

/-- The normalized bar `validate_bar` yields for an accepted generator
candidate (the volume value is written as `validate_bar` computes it:
`int(v or 0)` gives `0` when the drawn `int` is zero, i.e. the value
itself either way). -/
def synthBar (mode : String) (rng : Rng) (minutes limit : Nat) (now : ℚ)
    (i : Nat) (price : ℚ) : Validator.NormBar :=
  { symbol := "SYNTH",
    open_ := price,
    high := synthHigh mode rng i price,
    low := synthLow mode rng i price,
    close := synthClose mode rng i price,
    volume := rng.vols i,
    ts := some (.epochSecs (synthTs minutes limit now i)),
    time := some (toString (synthTs minutes limit now i)) }

/-- The bars the loop produces from a given step list and entering price,
when every candidate is accepted. -/
def synthBarsFrom (mode : String) (rng : Rng) (minutes limit : Nat) (now : ℚ) :
    List Nat → ℚ → List Validator.NormBar
  | [], _ => []
  | i :: rest, price =>
    synthBar mode rng minutes limit now i price ::
      synthBarsFrom mode rng minutes limit now rest (synthClose mode rng i price)

/-- The epoch-seconds timestamp a normalized bar carries, when numeric. -/
def barEpoch (b : Validator.NormBar) : Option ℤ :=
  match b.ts with
  | some (.epochSecs z) => some z
  | _ => none

/-- `resp["chart"]["result"][0]` with its parallel arrays, when the nested
extraction succeeds; `Option ℚ` cells are `None`-or-NaN.  A top-level
shape failure (or missing `timestamp`/`quote` arrays) is `none` at the
call site. -/
structure YahooQuote where
  timestamps : List ℤ
  opens : List (Option ℚ)
  highs : List (Option ℚ)
  lows : List (Option ℚ)
  closes : List (Option ℚ)
  volumes : List (Option ℤ)

/-- Row `i` of the zipped Yahoo arrays as a candidate bar, or `none` when
any OHLC entry is missing/NaN (the `continue` branch). -/
def yahooRow (q : YahooQuote) (i : Nat) : Option Validator.RawBar :=
  match q.opens.getD i none, q.highs.getD i none, q.lows.getD i none, q.closes.getD i none with
  | some o, some h, some lo, some c =>
    some { open_ := some (some o), high_ := some (some h), low_ := some (some lo),
           close_ := some (some c),
           ts_ := some (.epochSecs (q.timestamps.getD i 0)),
           volume_ := some { truthy := decide (((q.volumes.getD i none).getD 0) ≠ 0),
                             asInt := some ((q.volumes.getD i none).getD 0) } }
  | _, _, _, _ => none

/-- The Yahoo parsing loop over row indices: skip NaN rows, validate the
rest. -/
def yahooLoop (q : YahooQuote) (symbol : String) :
    List Nat → Except Unit (List Validator.NormBar)
  | [] => .ok []
  | i :: rest =>
    match yahooRow q i with
    | none => yahooLoop q symbol rest
    | some cand =>
      match Validator.validate_bar cand symbol with
      | .error e => .error e
      | .ok none => yahooLoop q symbol rest
      | .ok (some b) => (yahooLoop q symbol rest).map (fun bs => b :: bs)

/-- `normalize_yahoo_chart`: empty on shape failure or empty arrays, else
the zipped rows up to the shortest OHLC/timestamp array, validated. -/
def normalize_yahoo_chart (resp : Option YahooQuote) (symbol : String) :
    Except Unit (List Validator.NormBar) :=
  match resp with
  | none => .ok []
  | some q =>
    if q.timestamps = [] then .ok []
    else
      yahooLoop q symbol (List.range (min q.timestamps.length (min q.opens.length
        (min q.highs.length (min q.lows.length q.closes.length)))))

/-- Outcome of the one HTTP round-trip of the live path. -/
inductive HttpResult where
  | success (body : Option YahooQuote)
  | statusError (code : Nat)
  | requestError

/-- The payload `fetch_market_data` returns. -/
structure Payload where
  symbol : String
  interval : String
  as_of : String
  candles : List Validator.NormBar

/-- `SF_PROVIDER` default. -/
def PROVIDER : String := "YAHOO_CHART"

/-- `fetch_market_data` on the cache-miss path: normalize the interval,
serve synthetic data when requested, else hit the provider once; an HTTP
429 or a network-level request error falls back to the synthetic generator
with the same limit/interval/mode, any other HTTP status error is
re-raised unchanged. -/
def fetch_market_data (symbol interval : String) (limit : Nat) (synthetic : Bool)
    (synthetic_mode : String) (http : HttpResult) (rng : Rng) (now : ℚ) (as_of : String) :
    Except FetchErr Payload :=
  let sym := Validator.pyUpper symbol
  match _normalize_interval interval with
  | .error e => .error e
  | .ok norm_interval =>
    if synthetic then
      match _synthetic_candles_list limit norm_interval synthetic_mode rng now with
      | .error _ => .error .pyError
      | .ok candles =>
        .ok { symbol := sym, interval := norm_interval, as_of := as_of, candles := candles }
    else
      if PROVIDER = "YAHOO_CHART" then
        match http with
        | .success body =>
          match normalize_yahoo_chart body sym with
          | .error _ => .error .pyError
          | .ok candles =>
            .ok { symbol := sym, interval := norm_interval, as_of := as_of, candles := candles }
        | .statusError code =>
          if code = 429 then
            match _synthetic_candles_list limit norm_interval synthetic_mode rng now with
            | .error _ => .error .pyError
            | .ok candles =>
              .ok { symbol := sym, interval := norm_interval, as_of := as_of, candles := candles }
          else .error (.httpStatus code)
        | .requestError =>
          match _synthetic_candles_list limit norm_interval synthetic_mode rng now with
          | .error _ => .error .pyError
          | .ok candles =>
            .ok { symbol := sym, interval := norm_interval, as_of := as_of, candles := candles }
      else .error (.unsupportedProvider PROVIDER)

/-- A concrete draw stream: centred normal draws, zero envelope draws,
constant volume 2000. -/
def rngEx : Rng := { gauss := fun _ => 0, unifHi := fun _ => 0, unifLo := fun _ => 0,
                     vols := fun _ => 2000 }

end DataClient

end SignalForge

namespace SignalForge

open Validator

/-- Claim C3 (code bug): the claim says that for every raw mapping with
float-coercible `open/high/low/close`, `validate_bar` returns a bar iff
`low ≤ open ≤ high` and `low ≤ close ≤ high`, and otherwise the rejected
sentinel.  The code violates this: on `rangeOkBadVolume`, whose prices
satisfy the ordering (witnessed by the sibling bar `rangeOkNoVolume` being
accepted), the unguarded `int(bar.get("volume") or 0)` raises, so the call
produces neither a bar nor the sentinel. -/
theorem c3_range_valid_bar_raises_on_bad_volume :
    validate_bar rangeOkBadVolume "AAPL" = .error () ∧
    validate_bar rangeOkNoVolume "AAPL" =
      .ok (some { symbol := "AAPL", open_ := 1, high := 2, low := 0, close := 1,
                  volume := 0, ts := none, time := none }) := by
  decide

/-- Claim C8 (code bug): the claim says `validate_bar` never raises and
signals every failure by returning the rejected sentinel.  On `c8Bar`
(prices valid, volume `"abc"`-like: truthy, not `int`-coercible) the code
raises `ValueError` from `int(...)`, which sits outside every `try`. -/
theorem c8_validate_bar_raises_on_bad_volume :
    validate_bar c8Bar "MSFT" = .error () := by
  decide

/-- Claim C9 counterexample: a bar whose volume coerces to `-5` is accepted
by `validate_bar` with the negative volume passed through unchanged, so
"every accepted bar carries a non-negative volume" is false on the code. -/
theorem c9_counterexample_negative_volume_accepted :
    validate_bar negVolumeBar "SPY" =
      .ok (some { symbol := "SPY", open_ := 1, high := 2, low := 0, close := 1,
                  volume := -5, ts := none, time := none }) ∧
    (-5 : ℤ) < 0 := by
  decide

/-- Claim C9 (amended): every bar accepted by `validate_bar` carries an
integer volume equal to `int(volume or 0)` — in particular `0` whenever the
volume key is absent — but no non-negativity check is performed, so a
negative input volume is passed through. -/
theorem c9_amended_volume_rule (bar : RawBar) (symbol : String) (nb : NormBar)
    (h : validate_bar bar symbol = .ok (some nb)) :
    volumeField bar.volume_ = some nb.volume ∧
    (bar.volume_ = none → nb.volume = 0) := by
  unfold validate_bar at h
  split at h
  case h_2 => simp at h
  split at h
  case h_2 => simp at h
  split at h
  case isFalse => simp at h
  split at h
  case h_2 => simp at h
  case h_1 v hv =>
    simp only [Except.ok.injEq, Option.some.injEq] at h
    subst h
    refine ⟨by rw [hv], fun hnone => ?_⟩
    rw [hnone] at hv
    simp only [volumeField, Option.some.injEq] at hv
    exact hv.symm

/-- Claim C9 witness: the amended rule evaluated on a concrete accepted bar
with the volume key absent. -/
theorem c9_witness :
    volumeField absentVolumeBar.volume_ = some absentVolumeOut.volume ∧
    (absentVolumeBar.volume_ = none → absentVolumeOut.volume = 0) :=
  c9_amended_volume_rule absentVolumeBar "QQQ" absentVolumeOut (by decide)

end SignalForge

namespace SignalForge

open Basic

/-! ### Supporting lemmas for the strict feature builder -/

lemma seqOpt_isSome_iff (l : List (Option ℚ)) :
    (seqOpt l).isSome ↔ ∀ o ∈ l, o.isSome := by
  induction l with
  | nil => simp [seqOpt]
  | cons o rest ih =>
    cases o with
    | none => simp [seqOpt]
    | some v => simp [seqOpt, Option.isSome_map', ih]

lemma seqOpt_mem (l : List (Option ℚ)) (vs : List ℚ) (h : seqOpt l = some vs) :
    ∀ v ∈ vs, some v ∈ l := by
  induction l generalizing vs with
  | nil =>
    simp only [seqOpt, Option.some.injEq] at h
    subst h
    simp
  | cons o rest ih =>
    cases o with
    | none => simp [seqOpt] at h
    | some w =>
      simp only [seqOpt, Option.map_eq_some'] at h
      rcases h with ⟨ws, hws, hvs⟩
      subst hvs
      intro v hv
      rcases List.mem_cons.mp hv with rfl | hv'
      · exact List.mem_cons_self _ _
      · exact List.mem_cons_of_mem _ (ih ws hws v hv')

lemma seqOpt_zeros (l : List (Option ℚ)) (h : ∀ o ∈ l, o = some 0) :
    ∃ zs, seqOpt l = some zs ∧ zs.sum = 0 := by
  induction l with
  | nil => exact ⟨[], rfl, rfl⟩
  | cons o rest ih =>
    have ho := h o (List.mem_cons_self _ _)
    subst ho
    rcases ih (fun o ho' => h o (List.mem_cons_of_mem _ ho')) with ⟨zs, hzs, hsum⟩
    refine ⟨0 :: zs, ?_, by simp [hsum]⟩
    simp [seqOpt, hzs]

lemma length_filterMap_countP {α β : Type} (f : α → Option β) (l : List α) :
    (l.filterMap f).length = l.countP (fun a => (f a).isSome) := by
  induction l with
  | nil => rfl
  | cons a l ih =>
    cases hfa : f a <;>
      simp [List.filterMap_cons, hfa, List.countP_cons, ih]

lemma countP_range_ge (k n : Nat) :
    (List.range n).countP (fun i => decide (k ≤ i)) = n - k := by
  induction n with
  | zero => simp
  | succ n ih =>
    rw [List.range_succ, List.countP_append, ih]
    by_cases hk : k ≤ n <;> simp [List.countP_cons, hk] <;> omega

lemma rollMean_isSome_iff (f : Nat → Option ℚ) (w i : Nat) :
    (rollMean f w i).isSome ↔ w ≤ i + 1 ∧ ∀ j ∈ List.range w, (f (i + 1 - w + j)).isSome := by
  unfold rollMean
  split
  case isTrue h => simp; omega
  case isFalse h =>
    have hw : w ≤ i + 1 := by omega
    simp only [Option.isSome_map', seqOpt_isSome_iff, List.forall_mem_map, hw, true_and]

lemma rollMean_nonneg (f : Nat → Option ℚ) (w i : Nat) (x : ℚ)
    (hf : ∀ k v, f k = some v → 0 ≤ v) (h : rollMean f w i = some x) : 0 ≤ x := by
  unfold rollMean at h
  split at h
  · exact absurd h (by simp)
  rcases Option.map_eq_some'.mp h with ⟨l, hl, rfl⟩
  have hmem : ∀ v ∈ l, (0:ℚ) ≤ v := by
    intro v hv
    have hv' := seqOpt_mem _ _ hl v hv
    rcases List.mem_map.mp hv' with ⟨j, _, hfj⟩
    exact hf _ _ hfj
  exact div_nonneg (List.sum_nonneg hmem) (Nat.cast_nonneg w)

lemma rollMean_zero (f : Nat → Option ℚ) (w i : Nat) (hw : ¬ i + 1 < w)
    (hf : ∀ j ∈ List.range w, f (i + 1 - w + j) = some 0) :
    rollMean f w i = some 0 := by
  unfold rollMean
  rw [if_neg hw]
  have hz : ∀ o ∈ (List.range w).map (fun j => f (i + 1 - w + j)), o = some 0 := by
    intro o ho
    rcases List.mem_map.mp ho with ⟨j, hj, rfl⟩
    exact hf j hj
  rcases seqOpt_zeros _ hz with ⟨zs, hzs, hsum⟩
  rw [hzs]
  simp [hsum]

lemma cell_isSome (s : List ℚ) (i : Nat) : (cell s i).isSome ↔ i < s.length := by
  unfold cell
  split <;> simp [*]

lemma sma_isSome_iff (s : List ℚ) (w i : Nat) (hi : i < s.length) :
    (_sma s w i).isSome ↔ w ≤ i + 1 := by
  unfold _sma
  rw [rollMean_isSome_iff]
  constructor
  · exact fun h => h.1
  · intro hw
    refine ⟨hw, fun j hj => ?_⟩
    rw [cell_isSome]
    have := List.mem_range.mp hj
    omega

lemma kept_iff (rows : List Row) (i : Nat) (hi : i < rows.length) :
    (seqOpt (rowCells rows i)).isSome ↔
      19 ≤ i ∧ (_ret (closes rows) 1 i).isSome ∧ (_ret (closes rows) 3 i).isSome ∧
        (_rsi (closes rows) 14 i).isSome := by
  have hlc : (closes rows).length = rows.length := by simp [closes]
  have hlv : (volumes rows).length = rows.length := by simp [volumes]
  have hlt : (typs rows).length = rows.length := by simp [typs]
  have hlo : (opens rows).length = rows.length := by simp [opens]
  have hlh : (highs rows).length = rows.length := by simp [highs]
  have hll : (lows rows).length = rows.length := by simp [lows]
  rw [seqOpt_isSome_iff]
  simp only [rowCells, List.forall_mem_cons, List.not_mem_nil, false_implies, implies_true,
    and_true]
  constructor
  · rintro ⟨-, -, -, -, -, -, h7, h8, -, -, h11, h12, -, -⟩
    refine ⟨?_, h7, h8, h12⟩
    have h20 := (sma_isSome_iff (closes rows) 20 i (by omega)).mp h11
    omega
  · rintro ⟨h19, h7, h8, h12⟩
    refine ⟨?_, ?_, ?_, ?_, ?_, ?_, h7, h8, ?_, ?_, ?_, h12, ?_, ?_⟩
    · rw [cell_isSome]; omega
    · rw [cell_isSome]; omega
    · rw [cell_isSome]; omega
    · rw [cell_isSome]; omega
    · rw [cell_isSome]; omega
    · rw [cell_isSome]; omega
    · rw [sma_isSome_iff _ _ _ (by omega)]; omega
    · rw [sma_isSome_iff _ _ _ (by omega)]; omega
    · rw [sma_isSome_iff _ _ _ (by omega)]; omega
    · rw [sma_isSome_iff _ _ _ (by omega)]; omega
    · rw [sma_isSome_iff _ _ _ (by omega)]; omega

/-! ### Claim C4 -/

/-- Claim C4 counterexample: twenty valid bars with strictly increasing
closes.  The claim demands `20 - 19 = 1` output row, but every 14-delta
window has zero average loss, `rsi_14` is NaN on row 19, and `dropna`
deletes it: the strict builder returns 0 rows. -/
theorem c4_counterexample_all_up_closes :
    rowsUp20.length = 20 ∧ (build_features rowsUp20).length = 0 := by
  decide

/-- Claim C4 (amended): the strict builder returns 0 rows for fewer than 20
input bars and at most `n - 19` rows for `n ≥ 20`; the count is exactly
`n - 19` when, beyond the warm-up, every row also has non-NaN `ret_1`,
`ret_3` and `rsi_14` cells (the latter fails exactly when a 14-delta
window has zero average loss, as in the counterexample). -/
theorem c4_amended_row_count (rows : List Row) :
    (rows.length < 20 → build_features rows = []) ∧
    (build_features rows).length ≤ rows.length - 19 ∧
    ((20 ≤ rows.length ∧
        ∀ i ∈ List.range rows.length, 19 ≤ i →
          ((_ret (closes rows) 1 i).isSome ∧ (_ret (closes rows) 3 i).isSome ∧
            (_rsi (closes rows) 14 i).isSome)) →
      (build_features rows).length = rows.length - 19) := by
  have hlen : (build_features rows).length
      = (List.range rows.length).countP (fun i => (seqOpt (rowCells rows i)).isSome) :=
    length_filterMap_countP _ _
  refine ⟨?_, ?_, ?_⟩
  · intro h20
    unfold build_features
    rw [List.filterMap_eq_nil_iff]
    intro i hi
    have hi' := List.mem_range.mp hi
    rw [← Option.not_isSome_iff_eq_none]
    intro hs
    have := ((kept_iff rows i hi').mp hs).1
    omega
  · rw [hlen]
    have hmono : (List.range rows.length).countP (fun i => (seqOpt (rowCells rows i)).isSome)
        ≤ (List.range rows.length).countP (fun i => decide (19 ≤ i)) := by
      apply List.countP_mono_left
      intro i hi hk
      have hi' := List.mem_range.mp hi
      simp only [decide_eq_true_eq]
      exact ((kept_iff rows i hi').mp (by simpa using hk)).1
    calc (List.range rows.length).countP (fun i => (seqOpt (rowCells rows i)).isSome)
        ≤ (List.range rows.length).countP (fun i => decide (19 ≤ i)) := hmono
      _ = rows.length - 19 := countP_range_ge 19 rows.length
  · rintro ⟨h20, hdef⟩
    rw [hlen]
    rw [List.countP_congr (q := fun i => decide (19 ≤ i)) ?hc]
    · exact countP_range_ge 19 rows.length
    · intro i hi
      have hi' := List.mem_range.mp hi
      simp only [decide_eq_true_eq]
      constructor
      · intro hs
        exact ((kept_iff rows i hi').mp hs).1
      · intro h19
        exact (kept_iff rows i hi').mpr ⟨h19, hdef i hi h19⟩

/-- Claim C4 witness: on twenty bars with alternating closes the exact
count `20 - 19 = 1` is reached, via the amended theorem. -/
theorem c4_witness :
    (build_features rowsAlt20).length = rowsAlt20.length - 19 :=
  (c4_amended_row_count rowsAlt20).2.2 ⟨by decide, by decide⟩

end SignalForge

namespace SignalForge

open Basic Baseline

/-! ### Supporting lemmas for the RSI claims -/

lemma upC_nonneg (s : List ℚ) : ∀ k v, upC s k = some v → 0 ≤ v := by
  intro k v h
  unfold upC at h
  rcases Option.map_eq_some'.mp h with ⟨d, -, rfl⟩
  exact le_max_right d 0

lemma downC_nonneg (s : List ℚ) : ∀ k v, downC s k = some v → 0 ≤ v := by
  intro k v h
  unfold downC at h
  rcases Option.map_eq_some'.mp h with ⟨d, -, rfl⟩
  exact le_max_right (-d) 0

lemma rsi_formula_bounds (g l : ℚ) (hg : 0 ≤ g) (hl : 0 < l) :
    0 ≤ 100 - 100 / (1 + g / l) ∧ 100 - 100 / (1 + g / l) ≤ 100 := by
  have hrpos : 0 ≤ g / l := div_nonneg hg hl.le
  have h2 : 100 / (1 + g / l) ≤ 100 := div_le_self (by norm_num) (by linarith)
  have h3 : 0 < 100 / (1 + g / l) := by positivity
  constructor <;> linarith

lemma rsi_bounds (s : List ℚ) (period i : Nat) (v : ℚ)
    (h : Basic._rsi s period i = some v) : 0 ≤ v ∧ v ≤ 100 := by
  unfold _rsi at h
  rcases Option.map_eq_some'.mp h with ⟨r, hr, rfl⟩
  unfold rs at hr
  rcases Option.bind_eq_some.mp hr with ⟨d, hd, hr2⟩
  split at hr2
  · exact absurd hr2 (by simp)
  case isFalse hdne =>
    rcases Option.map_eq_some'.mp hr2 with ⟨u, hu, rfl⟩
    have hd0 : 0 ≤ d := rollMean_nonneg _ _ _ _ (downC_nonneg s) hd
    have hu0 : 0 ≤ u := rollMean_nonneg _ _ _ _ (upC_nonneg s) hu
    exact rsi_formula_bounds u d hu0 (lt_of_le_of_ne hd0 (Ne.symm hdne))

lemma rsiGains_nonneg (closes : List ℚ) (period : Nat) : 0 ≤ rsiGains closes period := by
  apply List.sum_nonneg
  intro x hx
  rcases List.mem_map.mp hx with ⟨ch, -, rfl⟩
  split
  case isTrue h => linarith
  case isFalse h => exact le_refl 0

lemma rsiLosses_nonneg (closes : List ℚ) (period : Nat) : 0 ≤ rsiLosses closes period := by
  apply List.sum_nonneg
  intro x hx
  rcases List.mem_map.mp hx with ⟨ch, -, rfl⟩
  split
  case isTrue h => exact le_refl 0
  case isFalse h => linarith

lemma rsi14_bounds (closes : List ℚ) (period : Nat) (v : ℚ)
    (h : Baseline._rsi14 closes period = some v) : 0 ≤ v ∧ v ≤ 100 := by
  unfold Baseline._rsi14 at h
  split at h
  · exact absurd h (by simp)
  split at h
  case isTrue =>
    simp only [Option.some.injEq] at h
    subst h
    norm_num
  case isFalse hne =>
    simp only [Option.some.injEq] at h
    subst h
    have hl0 : 0 ≤ rsiLosses closes period / (period : ℚ) :=
      div_nonneg (rsiLosses_nonneg closes period) (Nat.cast_nonneg period)
    have hg0 : 0 ≤ rsiGains closes period / (period : ℚ) :=
      div_nonneg (rsiGains_nonneg closes period) (Nat.cast_nonneg period)
    exact rsi_formula_bounds _ _ hg0 (lt_of_le_of_ne hl0 (Ne.symm hne))

lemma rsi14_all_up (closes : List ℚ) (period : Nat) (_hp : 0 < period)
    (hlen : period < closes.length)
    (hup : ∀ j ∈ List.range (period - 1),
      0 < nthC closes (closes.length - period + 1 + j)
        - nthC closes (closes.length - period + j)) :
    Baseline._rsi14 closes period = some 100 := by
  unfold Baseline._rsi14
  rw [if_neg (by omega)]
  have hloss : rsiLosses closes period = 0 := by
    apply List.sum_eq_zero
    intro x hx
    rcases List.mem_map.mp hx with ⟨ch, hch, rfl⟩
    unfold rsiChanges at hch
    rcases List.mem_map.mp hch with ⟨j, hj, rfl⟩
    rw [if_pos (hup j hj)]
  rw [hloss]
  norm_num

lemma rsi_none_of_all_up (s : List ℚ) (i : Nat) (h14 : 14 ≤ i) (hi : i < s.length)
    (hup : ∀ j ∈ List.range 14, 0 < nthC s (i - 13 + j) - nthC s (i - 14 + j)) :
    Basic._rsi s 14 i = none := by
  have hdown : roll_down s 14 i = some 0 := by
    unfold roll_down
    apply rollMean_zero _ _ _ (by omega)
    intro j hj
    have hjlt := List.mem_range.mp hj
    unfold downC diffC
    rw [if_neg (by omega : ¬ (i + 1 - 14 + j = 0 ∨ s.length ≤ i + 1 - 14 + j))]
    rw [Option.map_some']
    rw [show i + 1 - 14 + j - 1 = i - 14 + j from by omega,
        show i + 1 - 14 + j = i - 13 + j from by omega]
    have hd := hup j hj
    rw [max_eq_right (by linarith : -(nthC s (i - 13 + j) - nthC s (i - 14 + j)) ≤ 0)]
  unfold _rsi rs
  rw [hdown]
  simp

/-! ### Claim C5 -/

/-- Claim C5 counterexample: sixteen strictly increasing closes (every
delta positive, so the last 14-period window has zero average loss).  The
strict builder's `rsi_14` at the last row is NaN — the
`roll_down.replace(0.0, np.nan)` poisons `rs` — not the claimed 100. -/
theorem c5_counterexample_zero_loss_is_nan :
    ((List.range 15).all
        (fun j => decide (0 < nthC closesUp16 (j + 1) - nthC closesUp16 j)) = true) ∧
    Basic._rsi closesUp16 14 15 = none := by
  decide

/-- Claim C5 (amended): every defined `rsi_14` value of either builder lies
in `[0, 100]`, and a window of all-positive deltas (zero average loss)
yields exactly 100 in the baseline builder — but an *undefined* (NaN,
subsequently dropped) value in the strict builder. -/
theorem c5_amended_rsi_range_and_zero_loss :
    (∀ s i v, Basic._rsi s 14 i = some v → 0 ≤ v ∧ v ≤ 100) ∧
    (∀ closes period v, Baseline._rsi14 closes period = some v → 0 ≤ v ∧ v ≤ 100) ∧
    (∀ closes period, 0 < period → period < closes.length →
      (∀ j ∈ List.range (period - 1),
        0 < nthC closes (closes.length - period + 1 + j)
          - nthC closes (closes.length - period + j)) →
      Baseline._rsi14 closes period = some 100) ∧
    (∀ s i, 14 ≤ i → i < s.length →
      (∀ j ∈ List.range 14, 0 < nthC s (i - 13 + j) - nthC s (i - 14 + j)) →
      Basic._rsi s 14 i = none) :=
  ⟨fun s i v h => rsi_bounds s 14 i v h,
   fun c p v h => rsi14_bounds c p v h,
   fun c p hp hlen hup => rsi14_all_up c p hp hlen hup,
   fun s i h14 hi hup => rsi_none_of_all_up s i h14 hi hup⟩

/-- Claim C5 witness: the baseline RSI evaluated through the amended
theorem on sixteen strictly increasing closes gives exactly 100. -/
theorem c5_witness : Baseline._rsi14 closesUp16 14 = some 100 :=
  c5_amended_rsi_range_and_zero_loss.2.2.1 closesUp16 14 (by decide) (by decide) (by decide)

end SignalForge

namespace SignalForge

open Infer

/-! ### Supporting lemmas for the predictor claims -/

lemma klookup_isSome_contains (c : String) (cols : List (String × List ℚ)) :
    (keys cols).contains c = (klookup c cols).isSome := by
  induction cols with
  | nil => rfl
  | cons p rest ih =>
    by_cases h : p.1 = c
    · simp [keys, klookup, List.contains_cons, h]
    · simp only [keys, List.map_cons, List.contains_cons, klookup, if_neg h]
      rw [← ih]
      simp only [keys, Bool.or_eq_true, beq_iff_eq]
      have hcp : ¬ c = p.1 := fun hc => h hc.symm
      simp [hcp]

lemma dimCheck_ok (e? : Option Nat) (a : NpArray) (h2 : a.ndim = 2)
    (he : e? = none ∨ e? = some a.ncols) : dimCheck e? a = .ok a := by
  unfold dimCheck
  rw [if_neg (by omega)]
  rcases he with he | he <;> rw [he]
  simp

lemma dimCheck_mismatch (e? : Option Nat) (a : NpArray) (e : Nat) (h2 : a.ndim = 2)
    (he : e? = some e) (hne : a.ncols ≠ e) :
    dimCheck e? a = .error (.dimMismatch e a.ncols) := by
  unfold dimCheck
  rw [if_neg (by omega), he]
  simp [hne]

lemma prepare_named (meta : Meta) (s : Scaler) (model : MlModel)
    (fns : List String) (cols : List (String × List ℚ))
    (hf : feature_names meta = some fns) :
    _prepare_features meta s model (.df cols)
      = if missingOf fns cols ≠ [] then .error (.missingCols (missingOf fns cols))
        else dimCheck (expectedDim s model) (dfArrNamed fns cols) := by
  unfold _prepare_features
  rw [hf]

lemma prepare_fallback (meta : Meta) (s : Scaler) (model : MlModel)
    (cols : List (String × List ℚ)) (hf : feature_names meta = none) :
    _prepare_features meta s model (.df cols)
      = dimCheck (expectedDim s model) (dfArrFallback cols) := by
  unfold _prepare_features
  rw [hf]

/-! ### Claim C1 -/

/-- Claim C1: with a declared non-empty feature list `fns` (and a loaded
artifact bundle whose exposed width, if any, agrees with it — the bundle
invariant): when every named column is present, `predict_proba` and
`predict` succeed and the matrix handed to the scaler is `dfArrNamed fns
cols` — exactly the named columns in declared order; the result depends
only on the named-column contents, not on the table's column order; and
when some named column is absent, both fail with an error naming exactly
the missing columns. -/
theorem c1_feature_alignment (meta : Meta) (s : Scaler) (model : MlModel)
    (fns : List String) (cols : List (String × List ℚ))
    (hf : feature_names meta = some fns)
    (hexp : expectedDim s model = none ∨ expectedDim s model = some fns.length) :
    ((∀ c ∈ fns, (keys cols).contains c = true) →
      predict_proba meta s model (.df cols)
        = .ok (model.proba (s.transform (dfArrNamed fns cols))) ∧
      ∀ threshold, predict meta s model (.df cols) threshold
        = .ok ((model.proba (s.transform (dfArrNamed fns cols))).map
            (fun q => if threshold.getD (meta.threshold.getD (1/2)) ≤ q then 1 else 0))) ∧
    (∀ cols2, (∀ c, klookup c cols2 = klookup c cols) →
      predict_proba meta s model (.df cols2) = predict_proba meta s model (.df cols)) ∧
    (missingOf fns cols ≠ [] →
      predict_proba meta s model (.df cols) = .error (.missingCols (missingOf fns cols)) ∧
      ∀ threshold, predict meta s model (.df cols) threshold
        = .error (.missingCols (missingOf fns cols))) := by
  refine ⟨?_, ?_, ?_⟩
  · intro hpres
    have hmiss : missingOf fns cols = [] := by
      unfold missingOf
      rw [List.filter_eq_nil_iff]
      intro c hc
      simpa using hpres c hc
    have hprep : _prepare_features meta s model (.df cols) = .ok (dfArrNamed fns cols) := by
      rw [prepare_named meta s model fns cols hf, if_neg (by simp [hmiss])]
      exact dimCheck_ok _ _ rfl hexp
    constructor
    · unfold predict_proba
      rw [hprep]
      rfl
    · intro th
      unfold predict predict_proba
      rw [hprep]
      rfl
  · intro cols2 hlk
    have hkeys : ∀ c, (keys cols2).contains c = (keys cols).contains c := by
      intro c
      rw [klookup_isSome_contains, klookup_isSome_contains, hlk]
    have hm : missingOf fns cols2 = missingOf fns cols := by
      unfold missingOf
      apply List.filter_congr
      intro c _
      rw [hkeys]
    have harr : dfArrNamed fns cols2 = dfArrNamed fns cols := by
      unfold dfArrNamed
      simp only [NpArray.mk.injEq, true_and]
      apply List.map_congr_left
      intro c _
      rw [hlk]
    unfold predict_proba
    rw [prepare_named meta s model fns cols2 hf, prepare_named meta s model fns cols hf,
      hm, harr]
  · intro hne
    have hprep : _prepare_features meta s model (.df cols)
        = .error (.missingCols (missingOf fns cols)) := by
      rw [prepare_named meta s model fns cols hf, if_pos hne]
    constructor
    · unfold predict_proba
      rw [hprep]
      rfl
    · intro th
      unfold predict predict_proba
      rw [hprep]
      rfl

/-- Claim C1 witness: on a concrete two-column table given in swapped
order, `predict_proba` succeeds and the scaler receives the two declared
columns in metadata order. -/
theorem c1_witness :
    predict_proba metaEx scalerEx modelEx (.df colsEx)
      = .ok (modelEx.proba (scalerEx.transform (dfArrNamed ["sma_5", "rsi_14"] colsEx))) :=
  ((c1_feature_alignment metaEx scalerEx modelEx ["sma_5", "rsi_14"] colsEx rfl
    (Or.inr rfl)).1 (by decide)).1

/-! ### Claim C2 -/

/-- Claim C2: the expected width comes from the scaler's fitted feature
count when exposed and only otherwise from the model's; every prepared 2-D
input whose column count differs fails naming both widths; and in fallback
mode (no feature-name list) a width-matching table is accepted as-is,
without reordering. -/
theorem c2_dimensionality_check (meta : Meta) (s : Scaler) (model : MlModel) :
    (∀ e, s.nFeaturesIn = some e → expectedDim s model = some e) ∧
    (s.nFeaturesIn = none → expectedDim s model = model.nFeaturesIn) ∧
    (∀ a : NpArray, a.ndim = 2 → ∀ e, expectedDim s model = some e → a.ncols ≠ e →
      predict_proba meta s model (.arr a) = .error (.dimMismatch e a.ncols)) ∧
    (feature_names meta = none → ∀ cols : List (String × List ℚ), ∀ e,
      expectedDim s model = some e → cols.length ≠ e →
      predict_proba meta s model (.df cols) = .error (.dimMismatch e cols.length)) ∧
    (feature_names meta = none → ∀ cols : List (String × List ℚ),
      (expectedDim s model = none ∨ expectedDim s model = some cols.length) →
      _prepare_features meta s model (.df cols) = .ok (dfArrFallback cols)) := by
  refine ⟨?_, ?_, ?_, ?_, ?_⟩
  · intro e he
    unfold expectedDim
    rw [he]
  · intro he
    unfold expectedDim
    rw [he]
  · intro a h2 e he hne
    have hprep : _prepare_features meta s model (.arr a)
        = .error (.dimMismatch e a.ncols) := dimCheck_mismatch _ _ e h2 he hne
    unfold predict_proba
    rw [hprep]
    rfl
  · intro hf cols e he hne
    have hprep : _prepare_features meta s model (.df cols)
        = .error (.dimMismatch e cols.length) := by
      rw [prepare_fallback meta s model cols hf]
      exact dimCheck_mismatch _ _ e rfl he hne
    unfold predict_proba
    rw [hprep]
    rfl
  · intro hf cols he
    rw [prepare_fallback meta s model cols hf]
    exact dimCheck_ok _ _ rfl he

/-- Claim C2 witness: a 2-D array of width 3 against a scaler fitted on
width 2 fails naming expected 2 and actual 3. -/
theorem c2_witness :
    predict_proba metaNoFns scalerEx modelEx (.arr arrEx) = .error (.dimMismatch 2 3) :=
  (c2_dimensionality_check metaNoFns scalerEx modelEx).2.2.1 arrEx rfl 2 rfl (by decide)

end SignalForge

namespace SignalForge

open DataClient

/-! ### Supporting lemmas for the synthetic generator claims -/

lemma validate_bar_somes (o h low c : ℚ) (t : Validator.TsVal) (vv : Validator.VolVal)
    (sym : String) :
    Validator.validate_bar
      { open_ := some (some o), high_ := some (some h), low_ := some (some low),
        close_ := some (some c), ts_ := some t, volume_ := some vv } sym
      = if Validator.rangeOk o h low c then
          match Validator.volumeField (some vv) with
          | some v =>
            .ok (some { symbol := Validator.pyUpper sym, open_ := o, high := h, low := low,
                        close := c, volume := v,
                        ts := if (Validator._parse_ts t).isSome then some t else none,
                        time := Validator._parse_ts t })
          | none => .error ()
        else .ok none := rfl

lemma validate_synthCandidate (mode : String) (rng : Rng) (minutes limit : Nat) (now : ℚ)
    (i : Nat) (price : ℚ) (hHi : 0 ≤ rng.unifHi i) (hLo : 0 ≤ rng.unifLo i) :
    Validator.validate_bar (synthCandidate mode rng minutes limit now i price) "SYNTH"
      = .ok (some (synthBar mode rng minutes limit now i price)) := by
  have hHiM : 0 ≤ rng.unifHi i * (3/10) := mul_nonneg hHi (by norm_num)
  have hLoM : 0 ≤ rng.unifLo i * (3/10) := mul_nonneg hLo (by norm_num)
  have h1 := min_le_left price (synthClose mode rng i price)
  have h2 := min_le_right price (synthClose mode rng i price)
  have h3 := le_max_left price (synthClose mode rng i price)
  have h4 := le_max_right price (synthClose mode rng i price)
  have hrange : Validator.rangeOk price (synthHigh mode rng i price)
      (synthLow mode rng i price) (synthClose mode rng i price) := by
    unfold Validator.rangeOk synthHigh synthLow
    refine ⟨by linarith, by linarith, by linarith, by linarith⟩
  unfold synthCandidate
  rw [validate_bar_somes, if_pos hrange]
  have hup : Validator.pyUpper "SYNTH" = "SYNTH" := by decide
  by_cases hv : rng.vols i = 0
  · simp only [Validator.volumeField, hv, decide_not, decide_true_eq_true]
    norm_num
    unfold synthBar Validator._parse_ts
    simp [hup, hv]
  · simp only [Validator.volumeField, decide_eq_true hv, if_pos rfl]
    unfold synthBar Validator._parse_ts
    simp [hup]

lemma synthLoop_spec (mode : String) (rng : Rng) (minutes limit : Nat) (now : ℚ)
    (hHi : ∀ i, 0 ≤ rng.unifHi i) (hLo : ∀ i, 0 ≤ rng.unifLo i) :
    ∀ (is : List Nat) (price : ℚ),
      synthLoop mode rng minutes limit now is price
        = .ok (synthBarsFrom mode rng minutes limit now is price)
  | [], _ => rfl
  | i :: rest, price => by
    unfold synthLoop synthBarsFrom
    rw [validate_synthCandidate mode rng minutes limit now i price (hHi i) (hLo i)]
    rw [synthLoop_spec mode rng minutes limit now hHi hLo rest
      (synthClose mode rng i price)]
    rfl

lemma synthBarsFrom_length (mode : String) (rng : Rng) (minutes limit : Nat) (now : ℚ) :
    ∀ (is : List Nat) (price : ℚ),
      (synthBarsFrom mode rng minutes limit now is price).length = is.length
  | [], _ => rfl
  | i :: rest, price => by
    unfold synthBarsFrom
    simp [synthBarsFrom_length mode rng minutes limit now rest (synthClose mode rng i price)]

lemma synthBarsFrom_epochs (mode : String) (rng : Rng) (minutes limit : Nat) (now : ℚ) :
    ∀ (is : List Nat) (price : ℚ),
      (synthBarsFrom mode rng minutes limit now is price).filterMap barEpoch
        = is.map (fun i => synthTs minutes limit now i)
  | [], _ => rfl
  | i :: rest, price => by
    unfold synthBarsFrom
    simp only [List.filterMap_cons, List.map_cons]
    rw [show barEpoch (synthBar mode rng minutes limit now i price)
      = some (synthTs minutes limit now i) from rfl]
    rw [synthBarsFrom_epochs mode rng minutes limit now rest (synthClose mode rng i price)]

lemma synthBarsFrom_envelope (mode : String) (rng : Rng) (minutes limit : Nat) (now : ℚ)
    (hHi : ∀ i, 0 ≤ rng.unifHi i) (hLo : ∀ i, 0 ≤ rng.unifLo i) :
    ∀ (is : List Nat) (price : ℚ),
      ∀ b ∈ synthBarsFrom mode rng minutes limit now is price,
        b.low ≤ min b.open_ b.close ∧ max b.open_ b.close ≤ b.high
  | [], _ => by simp [synthBarsFrom]
  | i :: rest, price => by
    unfold synthBarsFrom
    intro b hb
    rcases List.mem_cons.mp hb with rfl | hb'
    · have hHiM : 0 ≤ rng.unifHi i * (3/10) := mul_nonneg (hHi i) (by norm_num)
      have hLoM : 0 ≤ rng.unifLo i * (3/10) := mul_nonneg (hLo i) (by norm_num)
      constructor
      · show synthLow mode rng i price ≤ min price (synthClose mode rng i price)
        unfold synthLow
        linarith
      · show max price (synthClose mode rng i price) ≤ synthHigh mode rng i price
        unfold synthHigh
        linarith
    · exact synthBarsFrom_envelope mode rng minutes limit now hHi hLo rest
        (synthClose mode rng i price) b hb'

lemma getLast?_map_range {α : Type} (f : Nat → α) (n : Nat) (hn : 0 < n) :
    ((List.range n).map f).getLast? = some (f (n - 1)) := by
  rcases Nat.exists_eq_succ_of_ne_zero (Nat.pos_iff_ne_zero.mp hn) with ⟨k, rfl⟩
  rw [List.range_succ, List.map_append]
  simp only [List.map_cons, List.map_nil, List.getLast?_concat]
  simp

lemma one_le_minutesOf (s : String) : 1 ≤ minutesOf s := by
  unfold minutesOf _INTERVAL_TO_MIN
  simp only [List.lookup]
  repeat' split
  all_goals simp

/-! ### Claim C7 -/

/-- Claim C7: for every positive limit, allow-listed interval and mode,
and draws from the real distributions' supports (`random.random() ≥ 0`),
the generator succeeds with at most `limit` bars, each satisfying the
validator's price-ordering invariant (each was admitted by `validate_bar`),
with timestamps spaced by exactly 60 times the interval's minute-equivalent
(`_INTERVAL_TO_MIN.get(interval, 5)`), strictly increasing, and ending at
`int(now)`.  The hypothesis `hnow` states that the generated range does not
reach back before the 1970 epoch, which holds for any real clock value. -/
theorem c7_synthetic_generator (limit : Nat) (interval mode : String) (rng : Rng) (now : ℚ)
    (hlim : 0 < limit) (_hint : interval ∈ _ALLOWED_INTERVALS)
    (hHi : ∀ i, 0 ≤ rng.unifHi i) (hLo : ∀ i, 0 ≤ rng.unifLo i)
    (hnow : 0 ≤ now - ((60 * minutesOf interval * (limit - 1) : ℕ) : ℚ)) :
    ∃ bars, _synthetic_candles_list limit interval mode rng now = .ok bars ∧
      bars.length ≤ limit ∧
      (∀ b ∈ bars, b.low ≤ b.open_ ∧ b.open_ ≤ b.high ∧ b.low ≤ b.close ∧ b.close ≤ b.high) ∧
      List.Chain' (fun a b => b = a + 60 * (minutesOf interval : ℤ) ∧ a < b)
        (bars.filterMap barEpoch) ∧
      (bars.filterMap barEpoch).getLast? = some (pyTrunc now) := by
  set m := minutesOf interval with hm
  have hm1 : 1 ≤ m := one_le_minutesOf interval
  refine ⟨synthBarsFrom mode rng m limit now (List.range limit) 100,
    synthLoop_spec mode rng m limit now hHi hLo (List.range limit) 100, ?_, ?_, ?_, ?_⟩
  · rw [synthBarsFrom_length]
    simp
  · intro b hb
    have henv := synthBarsFrom_envelope mode rng m limit now hHi hLo
      (List.range limit) 100 b hb
    have e1 := min_le_left b.open_ b.close
    have e2 := min_le_right b.open_ b.close
    have e3 := le_max_left b.open_ b.close
    have e4 := le_max_right b.open_ b.close
    exact ⟨by linarith [henv.1], by linarith [henv.2], by linarith [henv.1],
      by linarith [henv.2]⟩
  · rw [synthBarsFrom_epochs]
    have hts : ∀ i < limit, synthTs m limit now i
        = ⌊now - ((60 * m * (limit - 1) : ℕ) : ℚ)⌋ + ((60 * m * i : ℕ) : ℤ) := by
      intro i hi
      have hile : i ≤ limit - 1 := by omega
      have hcast : ((60 * m * (limit - 1 - i) : ℕ) : ℚ)
          = ((60 * m * (limit - 1) : ℕ) : ℚ) - ((60 * m * i : ℕ) : ℚ) := by
        have hmul : 60 * m * i ≤ 60 * m * (limit - 1) :=
          Nat.mul_le_mul_left _ hile
        have hsub : (60 * m * (limit - 1 - i) : ℕ)
            = 60 * m * (limit - 1) - 60 * m * i := by
          rw [Nat.mul_sub]
        rw [hsub, Nat.cast_sub hmul]
      have harg : now - ((60 * m * (limit - 1 - i) : ℕ) : ℚ)
          = (now - ((60 * m * (limit - 1) : ℕ) : ℚ)) + ((60 * m * i : ℕ) : ℚ) := by
        rw [hcast]
        ring
      unfold synthTs pyTrunc
      have hpos : 0 ≤ now - ((60 * m * (limit - 1) : ℕ) : ℚ) + ((60 * m * i : ℕ) : ℚ) := by
        have hb : (0:ℚ) ≤ ((60 * m * i : ℕ) : ℚ) := Nat.cast_nonneg _
        linarith
      rw [harg, if_pos hpos]
      exact Int.floor_add_nat _ _
    rw [List.map_congr_left (fun i hi => hts i (List.mem_range.mp hi))]
    rw [List.chain'_map]
    rcases Nat.exists_eq_succ_of_ne_zero (Nat.pos_iff_ne_zero.mp hlim) with ⟨n, rfl⟩
    refine (List.chain'_range_succ _ n).mpr ?_
    intro k hk
    constructor
    · simp only [Nat.succ_eq_add_one]
      push_cast
      ring
    · simp only [Nat.succ_eq_add_one]
      have hm0 : 0 < 60 * m := by omega
      have hexp : 60 * m * (k + 1) = 60 * m * k + 60 * m := by ring
      have h1 : 60 * m * k < 60 * m * (k + 1) := by omega
      exact add_lt_add_left (by exact_mod_cast h1) _
  · rw [synthBarsFrom_epochs]
    have hlast : synthTs m limit now (limit - 1) = pyTrunc now := by
      unfold synthTs
      rw [show limit - 1 - (limit - 1) = 0 from by omega]
      norm_num
    rw [getLast?_map_range _ limit hlim, hlast]

/-- Claim C7 witness: two five-minute synthetic bars from concrete draws at
`now = 1000`. -/
theorem c7_witness :
    ∃ bars, _synthetic_candles_list 2 "5m" "up" rngEx 1000 = .ok bars ∧
      bars.length ≤ 2 ∧
      (∀ b ∈ bars, b.low ≤ b.open_ ∧ b.open_ ≤ b.high ∧ b.low ≤ b.close ∧ b.close ≤ b.high) ∧
      List.Chain' (fun a b => b = a + 60 * (minutesOf "5m" : ℤ) ∧ a < b)
        (bars.filterMap barEpoch) ∧
      (bars.filterMap barEpoch).getLast? = some (pyTrunc 1000) :=
  c7_synthetic_generator 2 "5m" "up" rngEx 1000 (by decide) (by decide)
    (fun _ => le_refl 0) (fun _ => le_refl 0)
    (by
      have h5 : minutesOf "5m" = 5 := by decide
      rw [h5]
      norm_num)

/-! ### Claim C10 -/

/-- Claim C10: for any limit and draws from the real distributions'
supports, every candidate's high/low envelope contains the open/close pair
by construction, every candidate passes validation, and the generator
returns exactly `limit` bars. -/
theorem c10_synthetic_exact_count (limit : Nat) (interval mode : String) (rng : Rng)
    (now : ℚ) (hHi : ∀ i, 0 ≤ rng.unifHi i) (hLo : ∀ i, 0 ≤ rng.unifLo i) :
    ∃ bars, _synthetic_candles_list limit interval mode rng now = .ok bars ∧
      bars.length = limit ∧
      ∀ b ∈ bars, b.low ≤ min b.open_ b.close ∧ max b.open_ b.close ≤ b.high := by
  refine ⟨synthBarsFrom mode rng (minutesOf interval) limit now (List.range limit) 100,
    synthLoop_spec mode rng (minutesOf interval) limit now hHi hLo (List.range limit) 100,
    ?_, synthBarsFrom_envelope mode rng (minutesOf interval) limit now hHi hLo
      (List.range limit) 100⟩
  rw [synthBarsFrom_length]
  simp

/-- Claim C10 witness: three one-hour synthetic bars from concrete draws. -/
theorem c10_witness :
    ∃ bars, _synthetic_candles_list 3 "1h" "flat" rngEx 500 = .ok bars ∧
      bars.length = 3 ∧
      ∀ b ∈ bars, b.low ≤ min b.open_ b.close ∧ max b.open_ b.close ≤ b.high :=
  c10_synthetic_exact_count 3 "1h" "flat" rngEx 500
    (fun _ => le_refl 0) (fun _ => le_refl 0)

/-! ### Claim C6 -/

/-- Claim C6: on the live path (synthetic not requested), an HTTP 429 or a
network-level request error makes `fetch_market_data` return a payload of
synthetic candles generated with the same limit, normalized interval and
requested mode — never a transport error — while any other HTTP error
status is re-raised unchanged. -/
lemma fetch_live_status (symbol interval ni : String) (limit : Nat) (mode : String)
    (code : Nat) (rng : Rng) (now : ℚ) (as_of : String)
    (hni : _normalize_interval interval = .ok ni) :
    fetch_market_data symbol interval limit false mode (.statusError code) rng now as_of
      = if code = 429 then
          match _synthetic_candles_list limit ni mode rng now with
          | .error _ => .error .pyError
          | .ok candles => .ok { symbol := Validator.pyUpper symbol, interval := ni,
                                 as_of := as_of, candles := candles }
        else .error (.httpStatus code) := by
  unfold fetch_market_data
  rw [hni]
  rfl

lemma fetch_live_requestError (symbol interval ni : String) (limit : Nat) (mode : String)
    (rng : Rng) (now : ℚ) (as_of : String)
    (hni : _normalize_interval interval = .ok ni) :
    fetch_market_data symbol interval limit false mode .requestError rng now as_of
      = match _synthetic_candles_list limit ni mode rng now with
        | .error _ => .error .pyError
        | .ok candles => .ok { symbol := Validator.pyUpper symbol, interval := ni,
                               as_of := as_of, candles := candles } := by
  unfold fetch_market_data
  rw [hni]
  rfl

theorem c6_fetch_fallback_policy (symbol interval ni : String) (limit : Nat)
    (mode : String) (rng : Rng) (now : ℚ) (as_of : String)
    (hni : _normalize_interval interval = .ok ni)
    (hHi : ∀ i, 0 ≤ rng.unifHi i) (hLo : ∀ i, 0 ≤ rng.unifLo i) :
    (∃ cs, _synthetic_candles_list limit ni mode rng now = .ok cs ∧
      fetch_market_data symbol interval limit false mode (.statusError 429) rng now as_of
        = .ok { symbol := Validator.pyUpper symbol, interval := ni, as_of := as_of,
                candles := cs }) ∧
    (∃ cs, _synthetic_candles_list limit ni mode rng now = .ok cs ∧
      fetch_market_data symbol interval limit false mode .requestError rng now as_of
        = .ok { symbol := Validator.pyUpper symbol, interval := ni, as_of := as_of,
                candles := cs }) ∧
    (∀ code, code ≠ 429 →
      fetch_market_data symbol interval limit false mode (.statusError code) rng now as_of
        = .error (.httpStatus code)) := by
  have hsynth : _synthetic_candles_list limit ni mode rng now
      = .ok (synthBarsFrom mode rng (minutesOf ni) limit now (List.range limit) 100) :=
    synthLoop_spec mode rng (minutesOf ni) limit now hHi hLo (List.range limit) 100
  refine ⟨⟨_, hsynth, ?_⟩, ⟨_, hsynth, ?_⟩, ?_⟩
  · rw [fetch_live_status symbol interval ni limit mode 429 rng now as_of hni,
      if_pos rfl, hsynth]
  · rw [fetch_live_requestError symbol interval ni limit mode rng now as_of hni, hsynth]
  · intro code hcode
    rw [fetch_live_status symbol interval ni limit mode code rng now as_of hni,
      if_neg hcode]

/-- Claim C6 witness: an HTTP 500 propagates unchanged on a concrete
fetch. -/
theorem c6_witness :
    fetch_market_data "aapl" "5m" 10 false "down" (.statusError 500) rngEx 0 "t"
      = .error (.httpStatus 500) :=
  (c6_fetch_fallback_policy "aapl" "5m" "5m" 10 "down" rngEx 0 "t" (by decide)
    (fun _ => le_refl 0) (fun _ => le_refl 0)).2.2 500 (by decide)

end SignalForge
